import Mathlib

/-
Verification of the uwsgi transport module (uwsgi.go) for Caddy.

The Go source is shallowly embedded below:
  * strings are `List Char` (`Str`), `[]byte(s)` is `strBytes` (UTF-8);
  * Go maps (`vars`, `UWSGIParams`, `req.Header`) are association lists
    with distinct keys; map assignment is `mapInsert`, which overwrites
    the entry for an existing key and appends otherwise, so that an
    arbitrary iteration order of the Go map is an arbitrary list order;
  * machine integers are `Nat` with explicit wrap: `uint16 n = n % 65536`,
    serialized little-endian by `u16le`;
  * a Go runtime panic is the `GoOutcome.panics` constructor, a normal
    `return x, err` is `GoOutcome.returns (x, err)`;
  * the network connection in `RoundTrip` is an oracle (`ConnBehavior`)
    giving each write operation a success flag (the Go code discards the
    error results) and the result of `http.ReadResponse`; the model
    records the bytes handed to the connection, how many write operations
    reported an error, and how many times `req.Body.Close()` ran.
-/

set_option maxRecDepth 100000

namespace UwsgiT

/-- Strings of the Go program, as lists of characters. -/
abbrev Str := List Char

/-- Coerce a Lean string literal to the embedding's string type. -/
def str (s : String) : Str := s.data

/-- UTF-8 encoding of one character (Go `[]byte(string)` is UTF-8). -/
def charUTF8 (c : Char) : List Nat :=
  let n := c.toNat
  if n < 0x80 then [n]
  else if n < 0x800 then
    [0xC0 ||| (n >>> 6), 0x80 ||| (n &&& 0x3F)]
  else if n < 0x10000 then
    [0xE0 ||| (n >>> 12), 0x80 ||| ((n >>> 6) &&& 0x3F), 0x80 ||| (n &&& 0x3F)]
  else
    [0xF0 ||| (n >>> 18), 0x80 ||| ((n >>> 12) &&& 0x3F),
     0x80 ||| ((n >>> 6) &&& 0x3F), 0x80 ||| (n &&& 0x3F)]

/-- Go `[]byte(s)`: the UTF-8 bytes of the string. -/
def strBytes (s : Str) : List Nat := (s.map charUTF8).flatten

/-- Little-endian bytes of `uint16(n)` (the Go conversion wraps mod 2^16). -/
def u16le (n : Nat) : List Nat := [n % 256, n / 256 % 256]

/-- Read two bytes back as a little-endian unsigned 16-bit integer. -/
def readU16le (lo hi : Nat) : Nat := lo + 256 * hi

/-- Go `writeBlockVar`: `uint16-LE length || raw bytes` of one string. -/
def writeBlockVar (s : Str) : List Nat :=
  u16le (strBytes s).length ++ strBytes s

/-- The `vars` map of `generateBlockVars`, as an association list. -/
abbrev Vars := List (Str × Str)

/-- The serialization loop `for key, val := range vars { ... }`:
name then value, pair by pair, in the list's iteration order. -/
def serializeVars : Vars → List Nat
  | [] => []
  | (k, v) :: rest => writeBlockVar k ++ writeBlockVar v ++ serializeVars rest

/-- Go map assignment `m[k] = v`: overwrite the entry whose key is `k`
if one exists, otherwise add a new entry. -/
def mapInsert : Vars → Str → Str → Vars
  | [], k, v => [(k, v)]
  | (k2, v2) :: rest, k, v =>
    if k2 = k then (k, v) :: rest else (k2, v2) :: mapInsert rest k v

/-- Go map read `m[k]`: the value stored under key `k`, if any. -/
def lookupVar : Vars → Str → Option Str
  | [], _ => none
  | (k2, v) :: rest, k => if k2 = k then some v else lookupVar rest k

/-- Go `strings.Split(s, sep)` for a one-character separator. -/
def splitOnChar (c : Char) : List Char → List (List Char)
  | [] => [[]]
  | x :: xs =>
    match splitOnChar c xs with
    | [] => [[]]
    | h :: t => if x = c then [] :: h :: t else (x :: h) :: t

/-- Go `strings.Join(parts, sep)`. -/
def joinWithS (sep : Str) : List Str → Str
  | [] => []
  | [x] => x
  | x :: y :: t => x ++ sep ++ joinWithS sep (y :: t)

/-- Index of the last occurrence of `c` (Go `last(s, c)` in net). -/
def lastIdxOf? (c : Char) : List Char → Option Nat
  | [] => none
  | x :: xs =>
    match lastIdxOf? c xs with
    | some i => some (i + 1)
    | none => if x = c then some 0 else none

/-- Index of the first occurrence of `c` (Go `bytealg.IndexByteString`). -/
def idxOf? (c : Char) : List Char → Option Nat
  | [] => none
  | x :: xs => if x = c then some 0 else (idxOf? c xs).map (· + 1)

/-- Go `net.SplitHostPort`: split `"host:port"` / `"[host]:port"` into host
and port; `none` models every error return (missing port, too many colons,
stray brackets). Translated from `net/ipsock.go`. -/
def splitHostPort (hp : Str) : Option (Str × Str) :=
  match lastIdxOf? ':' hp with
  | none => none
  | some i =>
    if hp.headD ' ' = '[' then
      match idxOf? ']' hp with
      | none => none
      | some e =>
        if e + 1 = hp.length then none
        else if e + 1 = i then
          if (idxOf? '[' (hp.drop 1)).isSome then none
          else if (idxOf? ']' (hp.drop (e + 1))).isSome then none
          else some ((hp.drop 1).take (e - 1), hp.drop (i + 1))
        else none
    else
      if (idxOf? ':' (hp.take i)).isSome then none
      else if (idxOf? '[' hp).isSome then none
      else if (idxOf? ']' hp).isSome then none
      else some (hp.take i, hp.drop (i + 1))

/-- The transport's configuration: the static `uwsgi_params` map,
with its (arbitrary) iteration order. -/
structure Transport where
  UWSGIParams : Vars
deriving DecidableEq

/-- The fields of `http.Request` that `generateBlockVars` / `RoundTrip`
read.  `tls` is `req.TLS != nil`; `headers` is the `req.Header` map with
its (arbitrary) iteration order; `body` is `req.Body` (`none` = nil). -/
structure Request where
  host : Str
  remoteAddr : Str
  method : Str
  rawQuery : Str
  path : Str
  scheme : Str
  proto : Str
  requestURI : Str
  tls : Bool
  headers : List (Str × List Str)
  body : Option (List Nat)
deriving DecidableEq

/-- Go `req.Header.Get(k)`: first value stored under the key, or `""`. -/
def headerGet (hs : List (Str × List Str)) (k : Str) : Str :=
  match hs.find? (fun p => decide (p.1 = k)) with
  | some (_, v :: _) => v
  | _ => []

/-- The literal string `"on"`. -/
def onStr : Str := str "on"

/-- `"HTTP_" + headerNameReplacer.Replace(strings.ToUpper(name))`:
uppercase (ASCII), each `-` becomes `_`, prefixed with `HTTP_`. -/
def headerVarName (name : Str) : Str :=
  str "HTTP_" ++ (name.map Char.toUpper).map (fun ch => if ch = '-' then '_' else ch)

/-- Lines 80-90 of uwsgi.go: `net.SplitHostPort(req.Host)`, falling back
to the whole host on error, then defaulting an empty port to `"443"`
(TLS) or `"80"`. -/
def serverVars (host : Str) (tls : Bool) : Str × Str :=
  let sn_sp : Str × Str :=
    match splitHostPort host with
    | none => (host, [])
    | some (h, p) => (h, p)
  (sn_sp.1, if sn_sp.2 = [] then (if tls then str "443" else str "80") else sn_sp.2)

/-- Outcome of running a Go function body: a runtime panic, or a normal
return of a value. -/
inductive GoOutcome (α : Type) where
  | panics : GoOutcome α
  | returns (val : α) : GoOutcome α
deriving DecidableEq

/-- Lines 97-103 of uwsgi.go: split `req.RemoteAddr` on `:`, rejoin all
but the last piece, strip one pair of surrounding brackets.  Indexing
`remoteAddr[0]` panics when the rejoined prefix is empty (no `:` at all,
or nothing before the last `:`). -/
def remoteParse (addr : Str) : GoOutcome (Str × Str) :=
  let parts := splitOnChar ':' addr
  let ra := joinWithS [':'] parts.dropLast
  match ra with
  | [] => .panics
  | c :: rest =>
    let ra2 := if c = '[' ∧ (c :: rest).getLastD ' ' = ']' then rest.dropLast else c :: rest
    .returns (ra2, parts.getLastD [])

/-- The `vars` map literal of `generateBlockVars` (distinct keys, so the
literal's entry order is immaterial). -/
def baseVars (req : Request) (serverName serverPort remoteAddr remotePort : Str) : Vars :=
  [(str "QUERY_STRING", req.rawQuery),
   (str "REQUEST_METHOD", req.method),
   (str "CONTENT_TYPE", headerGet req.headers (str "Content-Type")),
   (str "CONTENT_LENGTH", headerGet req.headers (str "Content-Length")),
   (str "REQUEST_URI", req.requestURI),
   (str "PATH_INFO", req.path),
   (str "SERVER_PROTOCOL", req.proto),
   (str "REQUEST_SCHEME", req.scheme),
   (str "HTTPS", if req.tls then onStr else []),
   (str "REMOTE_ADDR", remoteAddr),
   (str "REMOTE_PORT", remotePort),
   (str "SERVER_PORT", serverPort),
   (str "SERVER_NAME", serverName),
   (str "HTTP_HOST", req.host)]

/-- The redundant `if req.TLS != nil { vars["HTTPS"] = "on" }` write. -/
def tlsVars (tls : Bool) (v : Vars) : Vars :=
  if tls then mapInsert v (str "HTTPS") onStr else v

/-- Go `generateBlockVars(req, t)`: build the variable map (base literal,
second HTTPS write, one `HTTP_*` entry per header, then the static
`UWSGIParams` applied last) and return it with a `nil` error; panics
exactly when the remote-address split panics. -/
def generateBlockVars (req : Request) (t : Transport) : GoOutcome (Vars × Option Str) :=
  match remoteParse req.remoteAddr with
  | .panics => .panics
  | .returns (remoteAddr, remotePort) =>
    let sv := serverVars req.host req.tls
    let v0 := baseVars req sv.1 sv.2 remoteAddr remotePort
    let v1 := tlsVars req.tls v0
    let v2 := req.headers.foldl
      (fun acc p => mapInsert acc (headerVarName p.1) (joinWithS (str ", ") p.2)) v1
    let v3 := t.UWSGIParams.foldl (fun acc p => mapInsert acc p.1 p.2) v2
    .returns (v3, none)

/-- The variable map produced by `generateBlockVars` (empty on a panic). -/
def getVars : GoOutcome (Vars × Option Str) → Vars
  | .panics => []
  | .returns (v, _) => v

/-- The bytes `RoundTrip` writes before the block: modifier1 `0`, the
block length as `uint16` little-endian (the Go conversion wraps), and
modifier2 `0`. -/
def frameHeader (len : Nat) : List Nat := 0 :: u16le len ++ [0]

/-- A parsed backend response (`http.ReadResponse` result). -/
structure Response where
  status : Nat
  respBody : List Nat
deriving DecidableEq

/-- Oracle for one connection: the success flag each write operation
returns (`getD` defaults to success), and what `http.ReadResponse`
yields (`none` = read/parse error). -/
structure ConnBehavior where
  writeOk : List Bool
  readResult : Option Response
deriving DecidableEq

/-- Result of `Transport.RoundTrip`. -/
inductive RTOutcome where
  | dialError
  | panicked
  | encodeError
  | respError
  | response (r : Response)
deriving DecidableEq

/-- Observable side effects of one `RoundTrip` call: bytes handed to the
connection in order, number of write operations whose error result was
non-nil (all discarded by the code), and number of `req.Body.Close()`
calls. -/
structure RTTrace where
  written : List Nat
  writeErrors : Nat
  bodyCloses : Nat
deriving DecidableEq

/-- Go `Transport.RoundTrip`: dial, encode, write the frame header, the
block, and the body (ignoring every write error), close the body if
present, then parse a response from the connection.  `dialOk` is whether
`net.Dial` succeeds. -/
def RoundTrip (req : Request) (t : Transport) (dialOk : Bool) (conn : ConnBehavior) :
    RTOutcome × RTTrace :=
  if dialOk = false then (.dialError, ⟨[], 0, 0⟩)
  else
    match generateBlockVars req t with
    | .panics => (.panicked, ⟨[], 0, 0⟩)
    | .returns (_, some _) => (.encodeError, ⟨[], 0, 0⟩)
    | .returns (vars, none) =>
      let block := serializeVars vars
      let written := frameHeader block.length ++ block ++ req.body.getD []
      let numWrites := 4 + (if req.body.isSome then 1 else 0)
      let wErrs := ((List.range numWrites).filter
        (fun i => ! conn.writeOk.getD i true)).length
      let closes : Nat := if req.body.isSome then 1 else 0
      match conn.readResult with
      | none => (.respError, ⟨written, wErrs, closes⟩)
      | some r => (.response r, ⟨written, wErrs, closes⟩)

/-! ### Lemmas about the map model (`mapInsert` / `lookupVar`) -/

theorem lookupVar_mapInsert_self (m : Vars) (k v : Str) :
    lookupVar (mapInsert m k v) k = some v := by
  induction m with
  | nil => simp [mapInsert, lookupVar]
  | cons p m ih =>
    obtain ⟨a, b⟩ := p
    by_cases h : a = k
    · simp [mapInsert, h, lookupVar]
    · simp [mapInsert, h, lookupVar, ih]

theorem lookupVar_mapInsert_ne (m : Vars) (k k2 v : Str) (h : k2 ≠ k) :
    lookupVar (mapInsert m k2 v) k = lookupVar m k := by
  induction m with
  | nil => simp [mapInsert, lookupVar, h]
  | cons p m ih =>
    obtain ⟨a, b⟩ := p
    simp only [mapInsert]
    by_cases ha : a = k2
    · have hak : ¬ a = k := fun e => h (ha.symm.trans e)
      rw [if_pos ha]
      simp only [lookupVar]
      rw [if_neg h, if_neg hak]
    · rw [if_neg ha]
      simp only [lookupVar]
      by_cases hk : a = k
      · rw [if_pos hk, if_pos hk]
      · rw [if_neg hk, if_neg hk, ih]

theorem lookupVar_foldl_ne {α : Type} (fk fv : α → Str) (l : List α) (m : Vars) (k : Str)
    (h : ∀ a ∈ l, fk a ≠ k) :
    lookupVar (l.foldl (fun acc a => mapInsert acc (fk a) (fv a)) m) k = lookupVar m k := by
  induction l generalizing m with
  | nil => rfl
  | cons a l ih =>
    rw [List.foldl_cons, ih _ (fun b hb => h b (List.mem_cons_of_mem _ hb)),
      lookupVar_mapInsert_ne _ _ _ _ (h a (List.mem_cons_self _ _))]

theorem lookupVar_foldl_mem {α : Type} (fk fv : α → Str) :
    ∀ (l : List α) (m : Vars) (k v : Str),
      (∃ a ∈ l, fk a = k ∧ fv a = v) →
      (∀ a ∈ l, fk a = k → fv a = v) →
      lookupVar (l.foldl (fun acc a => mapInsert acc (fk a) (fv a)) m) k = some v := by
  intro l
  induction l with
  | nil =>
    intro m k v hmem _
    simp at hmem
  | cons a l ih =>
    intro m k v hmem hall
    by_cases hl : ∃ b ∈ l, fk b = k
    · obtain ⟨b, hb, hfk⟩ := hl
      exact ih _ k v ⟨b, hb, hfk, hall b (List.mem_cons_of_mem _ hb) hfk⟩
        (fun x hx hk => hall x (List.mem_cons_of_mem _ hx) hk)
    · have hka : fk a = k ∧ fv a = v := by
        obtain ⟨x, hx, hk, hv⟩ := hmem
        rcases List.mem_cons.mp hx with rfl | hx2
        · exact ⟨hk, hv⟩
        · exact absurd ⟨x, hx2, hk⟩ hl
      push_neg at hl
      rw [List.foldl_cons, lookupVar_foldl_ne fk fv l _ k hl, hka.1, hka.2,
        lookupVar_mapInsert_self]

theorem keys_mapInsert (m : Vars) (k v : Str) :
    (mapInsert m k v).map Prod.fst =
      if k ∈ m.map Prod.fst then m.map Prod.fst else m.map Prod.fst ++ [k] := by
  induction m with
  | nil => simp [mapInsert]
  | cons p m ih =>
    obtain ⟨a, b⟩ := p
    by_cases h : a = k
    · simp [mapInsert, h]
    · have : ¬ k = a := fun e => h e.symm
      simp only [mapInsert, if_neg h, List.map_cons, List.mem_cons, this, false_or, ih]
      by_cases hm : k ∈ m.map Prod.fst <;> simp [hm]

theorem nodup_mapInsert (m : Vars) (k v : Str) (h : (m.map Prod.fst).Nodup) :
    ((mapInsert m k v).map Prod.fst).Nodup := by
  rw [keys_mapInsert]
  by_cases hm : k ∈ m.map Prod.fst
  · simpa [hm]
  · simp [hm, List.nodup_append, h]

theorem nodup_foldl_mapInsert {α : Type} (fk fv : α → Str) (l : List α) (m : Vars)
    (h : (m.map Prod.fst).Nodup) :
    (((l.foldl (fun acc a => mapInsert acc (fk a) (fv a)) m)).map Prod.fst).Nodup := by
  induction l generalizing m with
  | nil => exact h
  | cons a l ih => exact ih _ (nodup_mapInsert _ _ _ h)

theorem mem_nodup_keys_unique {α β : Type} : ∀ (l : List (α × β)) (k : α) (v : β),
    (l.map Prod.fst).Nodup → (k, v) ∈ l → ∀ p ∈ l, p.1 = k → p.2 = v := by
  intro l
  induction l with
  | nil =>
    intro k v _ hmem
    simp at hmem
  | cons q l ih =>
    intro k v h hmem p hp hpk
    have hq : q.1 ∉ l.map Prod.fst := (List.nodup_cons.mp (by simpa using h)).1
    have hnd : (l.map Prod.fst).Nodup := (List.nodup_cons.mp (by simpa using h)).2
    rcases List.mem_cons.mp hmem with hkv | hkv
    · rcases List.mem_cons.mp hp with rfl | hp2
      · exact congrArg Prod.snd hkv.symm
      · have h1 : p.1 ∈ l.map Prod.fst := List.mem_map_of_mem Prod.fst hp2
        rw [hpk] at h1
        rw [(congrArg Prod.fst hkv).symm] at hq
        exact absurd h1 hq
    · rcases List.mem_cons.mp hp with rfl | hp2
      · have h1 : k ∈ l.map Prod.fst := List.mem_map_of_mem Prod.fst hkv
        rw [hpk] at hq
        exact absurd h1 hq
      · exact ih k v hnd hkv p hp2 hpk

/-! ### Lemmas about split / join / host-port parsing -/

theorem splitOnChar_shape (c : Char) (l : List Char) :
    ∃ h t, splitOnChar c l = h :: t := by
  induction l with
  | nil => exact ⟨[], [], rfl⟩
  | cons x xs ih =>
    obtain ⟨h, t, hs⟩ := ih
    by_cases hx : x = c
    · exact ⟨[], h :: t, by simp [splitOnChar, hs, hx]⟩
    · exact ⟨x :: h, t, by simp [splitOnChar, hs, hx]⟩

theorem joinWithS_splitOnChar (c : Char) (l : List Char) :
    joinWithS [c] (splitOnChar c l) = l := by
  induction l with
  | nil => rfl
  | cons x xs ih =>
    obtain ⟨h, t, hs⟩ := splitOnChar_shape c xs
    rw [hs] at ih
    by_cases hx : x = c
    · rw [show splitOnChar c (x :: xs) = [] :: h :: t by simp [splitOnChar, hs, hx]]
      show [] ++ [c] ++ joinWithS [c] (h :: t) = x :: xs
      rw [ih, hx]
      rfl
    · rw [show splitOnChar c (x :: xs) = (x :: h) :: t by simp [splitOnChar, hs, hx]]
      cases t with
      | nil =>
        show x :: h = x :: xs
        rw [show h = xs from ih]
      | cons t1 t2 =>
        show (x :: h) ++ [c] ++ joinWithS [c] (t1 :: t2) = x :: xs
        rw [← ih]
        rfl

theorem splitOnChar_append_sep (c : Char) (xs ys : List Char) :
    splitOnChar c (xs ++ c :: ys) = splitOnChar c xs ++ splitOnChar c ys := by
  induction xs with
  | nil =>
    obtain ⟨h, t, hs⟩ := splitOnChar_shape c ys
    simp [splitOnChar, hs]
  | cons x xs ih =>
    obtain ⟨h, t, hs⟩ := splitOnChar_shape c xs
    have hl : splitOnChar c (xs ++ c :: ys) = h :: (t ++ splitOnChar c ys) := by
      rw [ih, hs]
      rfl
    by_cases hx : x = c
    · show splitOnChar c (x :: (xs ++ c :: ys)) = splitOnChar c (x :: xs) ++ splitOnChar c ys
      simp only [splitOnChar, hl, hs, if_pos hx]
      rfl
    · show splitOnChar c (x :: (xs ++ c :: ys)) = splitOnChar c (x :: xs) ++ splitOnChar c ys
      simp only [splitOnChar, hl, hs, if_neg hx]
      rfl

theorem splitOnChar_no_sep (c : Char) (l : List Char) (h : c ∉ l) :
    splitOnChar c l = [l] := by
  induction l with
  | nil => rfl
  | cons x xs ih =>
    have hx : ¬ x = c := fun e => h (e ▸ List.mem_cons_self _ _)
    simp [splitOnChar, ih (fun hc => h (List.mem_cons_of_mem _ hc)), hx]

theorem lastIdxOf?_eq_none (c : Char) (l : List Char) (h : c ∉ l) :
    lastIdxOf? c l = none := by
  induction l with
  | nil => rfl
  | cons x xs ih =>
    have hx : ¬ x = c := fun e => h (e ▸ List.mem_cons_self _ _)
    simp [lastIdxOf?, ih (fun hc => h (List.mem_cons_of_mem _ hc)), hx]

theorem splitHostPort_no_colon (hp : Str) (h : ':' ∉ hp) :
    splitHostPort hp = none := by
  simp [splitHostPort, lastIdxOf?_eq_none _ _ h]

theorem serverVars_no_colon (host : Str) (tls : Bool) (h : ':' ∉ host) :
    serverVars host tls = (host, if tls then str "443" else str "80") := by
  simp [serverVars, splitHostPort_no_colon _ h]

/-! ### Lemmas about `generateBlockVars` and serialization -/

theorem generateBlockVars_eq (req : Request) (t : Transport) (ra rp : Str)
    (h : remoteParse req.remoteAddr = .returns (ra, rp)) :
    generateBlockVars req t = .returns
      (t.UWSGIParams.foldl (fun acc p => mapInsert acc p.1 p.2)
        (req.headers.foldl
          (fun acc p => mapInsert acc (headerVarName p.1) (joinWithS (str ", ") p.2))
          (tlsVars req.tls
            (baseVars req (serverVars req.host req.tls).1 (serverVars req.host req.tls).2
              ra rp))), none) := by
  simp only [generateBlockVars, h]

theorem generateBlockVars_shape (req : Request) (t : Transport) :
    generateBlockVars req t = .panics ∨
      ∃ v, generateBlockVars req t = .returns (v, none) := by
  cases hr : remoteParse req.remoteAddr with
  | panics => exact Or.inl (by simp [generateBlockVars, hr])
  | returns val =>
    obtain ⟨ra, rp⟩ := val
    exact Or.inr ⟨_, generateBlockVars_eq req t ra rp hr⟩

theorem remoteParse_of_ne_panics (req : Request) (t : Transport)
    (h : generateBlockVars req t ≠ .panics) :
    ∃ ra rp, remoteParse req.remoteAddr = .returns (ra, rp) := by
  cases hr : remoteParse req.remoteAddr with
  | panics => exact absurd (by simp [generateBlockVars, hr]) h
  | returns val =>
    obtain ⟨ra, rp⟩ := val
    exact ⟨ra, rp, rfl⟩

theorem headerVarName_head (n : Str) : (headerVarName n).head? = some 'H' := rfl

theorem headerVarName_ne (n k : Str) (h : k.head? ≠ some 'H') : headerVarName n ≠ k :=
  fun he => h (he ▸ headerVarName_head n)

theorem lookupVar_tlsVars_ne (tls : Bool) (v : Vars) (k : Str) (h : k ≠ str "HTTPS") :
    lookupVar (tlsVars tls v) k = lookupVar v k := by
  cases tls with
  | false => rfl
  | true => exact lookupVar_mapInsert_ne _ _ _ _ (fun e => h e.symm)

theorem lookup_baseVars_SERVER_NAME (req : Request) (sn sp ra rp : Str) :
    lookupVar (baseVars req sn sp ra rp) (str "SERVER_NAME") = some sn := rfl

theorem lookup_baseVars_SERVER_PORT (req : Request) (sn sp ra rp : Str) :
    lookupVar (baseVars req sn sp ra rp) (str "SERVER_PORT") = some sp := rfl

theorem nodup_keys_baseVars (req : Request) (sn sp ra rp : Str) :
    ((baseVars req sn sp ra rp).map Prod.fst).Nodup := by
  have h : (baseVars req sn sp ra rp).map Prod.fst =
      [str "QUERY_STRING", str "REQUEST_METHOD", str "CONTENT_TYPE", str "CONTENT_LENGTH",
       str "REQUEST_URI", str "PATH_INFO", str "SERVER_PROTOCOL", str "REQUEST_SCHEME",
       str "HTTPS", str "REMOTE_ADDR", str "REMOTE_PORT", str "SERVER_PORT",
       str "SERVER_NAME", str "HTTP_HOST"] := rfl
  rw [h]
  decide

theorem nodup_keys_tlsVars (tls : Bool) (v : Vars) (h : (v.map Prod.fst).Nodup) :
    ((tlsVars tls v).map Prod.fst).Nodup := by
  cases tls
  · exact h
  · exact nodup_mapInsert _ _ _ h

theorem lookup_baseVars_REMOTE_ADDR (req : Request) (sn sp ra rp : Str) :
    lookupVar (baseVars req sn sp ra rp) (str "REMOTE_ADDR") = some ra := rfl

theorem lookup_baseVars_REMOTE_PORT (req : Request) (sn sp ra rp : Str) :
    lookupVar (baseVars req sn sp ra rp) (str "REMOTE_PORT") = some rp := rfl

theorem serializeVars_append (l1 l2 : Vars) :
    serializeVars (l1 ++ l2) = serializeVars l1 ++ serializeVars l2 := by
  induction l1 with
  | nil => rfl
  | cons p l ih =>
    obtain ⟨k, v⟩ := p
    simp [serializeVars, ih]

theorem writeBlockVar_length (s : Str) :
    (writeBlockVar s).length = 2 + (strBytes s).length := by
  simp [writeBlockVar, u16le]
  omega

theorem serializeVars_length (l : Vars) :
    (serializeVars l).length =
      (l.map (fun p => 4 + (strBytes p.1).length + (strBytes p.2).length)).sum := by
  induction l with
  | nil => rfl
  | cons p l ih =>
    obtain ⟨k, v⟩ := p
    simp [serializeVars, writeBlockVar_length, ih]
    ring

theorem strBytes_replicate_a (n : Nat) :
    (strBytes (List.replicate n 'a')).length = n := by
  induction n with
  | zero => rfl
  | succ n ih =>
    rw [List.replicate_succ]
    show (charUTF8 'a' ++ strBytes (List.replicate n 'a')).length = n + 1
    rw [List.length_append, ih]
    have h1 : (charUTF8 'a').length = 1 := rfl
    omega

theorem remoteParse_split (addr pre post : Str) (h : addr = pre ++ ':' :: post)
    (hpost : ':' ∉ post) (hpre : pre ≠ []) :
    remoteParse addr = .returns
      ((if pre.headD ' ' = '[' ∧ pre.getLastD ' ' = ']'
        then (pre.drop 1).dropLast else pre), post) := by
  subst h
  have hsplit : splitOnChar ':' (pre ++ ':' :: post) = splitOnChar ':' pre ++ [post] := by
    rw [splitOnChar_append_sep, splitOnChar_no_sep _ _ hpost]
  obtain ⟨c, rest, hc⟩ : ∃ c rest, pre = c :: rest := by
    cases pre with
    | nil => exact absurd rfl hpre
    | cons a b => exact ⟨a, b, rfl⟩
  simp only [remoteParse, hsplit, List.dropLast_concat, List.getLastD_concat,
    joinWithS_splitOnChar]
  subst hc
  rfl

/-! ### Concrete fixtures used by witnesses and counterexamples -/

/-- A plaintext request with two custom headers. -/
def reqW : Request :=
  { host := str "example.com:8080", remoteAddr := str "1.2.3.4:56", method := str "GET",
    rawQuery := str "x=1", path := str "/status", scheme := str "http",
    proto := str "HTTP/1.1", requestURI := str "/status?x=1", tls := false,
    headers := [(str "X-Custom-Id", [str "42"]),
      (str "Accept", [str "text/html", str "application/json"])],
    body := none }

/-- Static parameters: one colliding with a derived name, one fresh. -/
def tW : Transport :=
  ⟨[(str "REQUEST_METHOD", str "OVERRIDE"), (str "UWSGI_SCRIPT", str "/app")]⟩

/-- A transport with no static parameters. -/
def tEmpty : Transport := ⟨[]⟩

/-- A minimal request (most fields empty). -/
def reqSmall : Request :=
  { host := str "h", remoteAddr := str "1:2", method := str "GET",
    rawQuery := [], path := [], scheme := [], proto := [], requestURI := [],
    tls := false, headers := [], body := none }

/-- A backend response with body "ok". -/
def respW : Response := ⟨200, [111, 107]⟩

/-- A connection on which every write succeeds and a response parses. -/
def connOk : ConnBehavior := ⟨[], some respW⟩

/-! ### The claims -/

/-- Claim C1: for every request and every static parameter mapping
(with the map's distinct keys, in any iteration order — both Go maps are
quantified as arbitrary association lists), the variable block built by
`generateBlockVars` contains exactly one entry per unique name, and every
static parameter's value is the final one, replacing any same-named
derived variable (request-derived or header-derived alike). -/
theorem blockVars_nodup_and_static_override (req : Request) (t : Transport)
    (hnd : (t.UWSGIParams.map Prod.fst).Nodup) :
    ((getVars (generateBlockVars req t)).map Prod.fst).Nodup ∧
      (generateBlockVars req t ≠ .panics →
        ∀ kv ∈ t.UWSGIParams,
          lookupVar (getVars (generateBlockVars req t)) kv.1 = some kv.2) := by
  constructor
  · cases hr : remoteParse req.remoteAddr with
    | panics =>
      have h : generateBlockVars req t = .panics := by simp [generateBlockVars, hr]
      rw [h]
      simp [getVars]
    | returns val =>
      obtain ⟨ra, rp⟩ := val
      rw [generateBlockVars_eq req t ra rp hr]
      simp only [getVars]
      exact nodup_foldl_mapInsert _ _ _ _
        (nodup_foldl_mapInsert _ _ _ _
          (nodup_keys_tlsVars _ _ (nodup_keys_baseVars _ _ _ _ _)))
  · intro hnp kv hkv
    obtain ⟨ra, rp, hr⟩ := remoteParse_of_ne_panics req t hnp
    rw [generateBlockVars_eq req t ra rp hr]
    simp only [getVars]
    exact lookupVar_foldl_mem _ _ _ _ _ _ ⟨kv, hkv, rfl, rfl⟩
      (fun p hp hpk => mem_nodup_keys_unique t.UWSGIParams kv.1 kv.2 hnd
        (by simpa using hkv) p hp hpk)

/-- Witness for C1 at a concrete request: keys stay unique and the static
`REQUEST_METHOD` replaces the derived method. -/
theorem blockVars_nodup_and_static_override_witness :
    ((getVars (generateBlockVars reqW tW)).map Prod.fst).Nodup ∧
      lookupVar (getVars (generateBlockVars reqW tW)) (str "REQUEST_METHOD") =
        some (str "OVERRIDE") := by
  have h := blockVars_nodup_and_static_override reqW tW (by decide)
  exact ⟨h.1, h.2 (by decide) (str "REQUEST_METHOD", str "OVERRIDE") (by decide)⟩

/-- Claim C10: `generateBlockVars` has a single return statement,
`return &packetBody, nil` — whenever it returns at all its error result
is nil, so RoundTrip's encoding-failure branch can never be taken. -/
theorem generateBlockVars_error_always_nil (req : Request) (t : Transport) :
    (generateBlockVars req t = .panics ∨
      ∃ v, generateBlockVars req t = .returns (v, none)) ∧
    ∀ dialOk conn, (RoundTrip req t dialOk conn).1 ≠ RTOutcome.encodeError := by
  refine ⟨generateBlockVars_shape req t, ?_⟩
  intro dialOk conn
  rcases generateBlockVars_shape req t with h | ⟨v, h⟩ <;> cases dialOk
  · simp [RoundTrip]
  · simp [RoundTrip, h]
  · simp [RoundTrip]
  · cases hc : conn.readResult <;> simp [RoundTrip, h, hc]

/-- Claim C3 (code bug): on a peer address without a `:` separator the
encoder does not return an error — it panics (Go index out of range on
the empty rejoined host), shown at `RemoteAddr = "localhost"`. -/
theorem encoder_panics_on_separatorless_peer :
    remoteParse (str "localhost") = .panics ∧
    generateBlockVars { reqSmall with remoteAddr := str "localhost" } tEmpty = .panics := by
  exact ⟨rfl, rfl⟩

/-- Claim C6: each request header (name, values) yields the block entry
`HTTP_` + name uppercased with `-` replaced by `_`, valued by the header's
values joined with ", " — provided no distinct header derives the same
variable name and no static parameter overrides it (the header map's keys
are distinct, as in Go). -/
theorem header_entry_derivation (req : Request) (t : Transport)
    (name : Str) (values : List Str)
    (hnd : (req.headers.map Prod.fst).Nodup)
    (hmem : (name, values) ∈ req.headers)
    (hinj : ∀ p ∈ req.headers, p.1 ≠ name → headerVarName p.1 ≠ headerVarName name)
    (hpar : ∀ p ∈ t.UWSGIParams, p.1 ≠ headerVarName name)
    (hnp : generateBlockVars req t ≠ .panics) :
    lookupVar (getVars (generateBlockVars req t)) (headerVarName name) =
      some (joinWithS (str ", ") values) := by
  obtain ⟨ra, rp, hr⟩ := remoteParse_of_ne_panics req t hnp
  rw [generateBlockVars_eq req t ra rp hr]
  simp only [getVars]
  rw [lookupVar_foldl_ne _ _ _ _ _ hpar]
  exact lookupVar_foldl_mem _ _ _ _ _ _ ⟨(name, values), hmem, rfl, rfl⟩
    (fun p hp he => by
      by_cases hpn : p.1 = name
      · have h2 : p.2 = values :=
          mem_nodup_keys_unique req.headers name values hnd hmem p hp hpn
        rw [h2]
      · exact absurd he (hinj p hp hpn))

/-- Witness for C6: `X-Custom-Id: 42` yields `HTTP_X_CUSTOM_ID = "42"`, and
the repeated `Accept` header yields one joined `HTTP_ACCEPT` entry. -/
theorem header_entry_derivation_witness :
    lookupVar (getVars (generateBlockVars reqW tW)) (str "HTTP_X_CUSTOM_ID") =
      some (str "42") ∧
    lookupVar (getVars (generateBlockVars reqW tW)) (str "HTTP_ACCEPT") =
      some (str "text/html, application/json") := by
  have h1 := header_entry_derivation reqW tW (str "X-Custom-Id") [str "42"]
    (by decide) (by decide) (by decide) (by decide) (by decide)
  have h2 := header_entry_derivation reqW tW (str "Accept")
    [str "text/html", str "application/json"]
    (by decide) (by decide) (by decide) (by decide) (by decide)
  exact ⟨h1, h2⟩

/-- Claim C7: SERVER_NAME / SERVER_PORT come from splitting `req.Host`;
when the host has no port the whole host string is the name and the port
defaults to "443" on TLS and "80" otherwise; `"example.com:8080"` gives
name "example.com" and port "8080" (no static override of the two names). -/
theorem server_name_port_derivation (req : Request) (t : Transport)
    (hsn : ∀ p ∈ t.UWSGIParams, p.1 ≠ str "SERVER_NAME")
    (hsp : ∀ p ∈ t.UWSGIParams, p.1 ≠ str "SERVER_PORT")
    (hnp : generateBlockVars req t ≠ .panics) :
    (':' ∉ req.host →
      lookupVar (getVars (generateBlockVars req t)) (str "SERVER_NAME") =
        some req.host ∧
      lookupVar (getVars (generateBlockVars req t)) (str "SERVER_PORT") =
        some (if req.tls then str "443" else str "80")) ∧
    (req.host = str "example.com:8080" →
      lookupVar (getVars (generateBlockVars req t)) (str "SERVER_NAME") =
        some (str "example.com") ∧
      lookupVar (getVars (generateBlockVars req t)) (str "SERVER_PORT") =
        some (str "8080")) := by
  obtain ⟨ra, rp, hr⟩ := remoteParse_of_ne_panics req t hnp
  rw [generateBlockVars_eq req t ra rp hr]
  simp only [getVars]
  constructor
  · intro hc
    constructor
    · rw [lookupVar_foldl_ne _ _ _ _ _ hsn,
        lookupVar_foldl_ne _ _ _ _ _ (fun p _ => headerVarName_ne p.1 _ (by decide)),
        lookupVar_tlsVars_ne _ _ _ (by decide),
        lookup_baseVars_SERVER_NAME, serverVars_no_colon _ _ hc]
    · rw [lookupVar_foldl_ne _ _ _ _ _ hsp,
        lookupVar_foldl_ne _ _ _ _ _ (fun p _ => headerVarName_ne p.1 _ (by decide)),
        lookupVar_tlsVars_ne _ _ _ (by decide),
        lookup_baseVars_SERVER_PORT, serverVars_no_colon _ _ hc]
  · intro hh
    constructor
    · rw [lookupVar_foldl_ne _ _ _ _ _ hsn,
        lookupVar_foldl_ne _ _ _ _ _ (fun p _ => headerVarName_ne p.1 _ (by decide)),
        lookupVar_tlsVars_ne _ _ _ (by decide),
        lookup_baseVars_SERVER_NAME, hh]
      rfl
    · rw [lookupVar_foldl_ne _ _ _ _ _ hsp,
        lookupVar_foldl_ne _ _ _ _ _ (fun p _ => headerVarName_ne p.1 _ (by decide)),
        lookupVar_tlsVars_ne _ _ _ (by decide),
        lookup_baseVars_SERVER_PORT, hh]
      rfl

/-- A portless plaintext request. -/
def reqNoPort : Request := { reqW with host := str "example.com" }

/-- A portless TLS request. -/
def reqNoPortTLS : Request := { reqW with host := str "example.com", tls := true }

/-- Witness for C7: port defaults 80 / 443 without a port, and
"example.com:8080" splits into name and port. -/
theorem server_name_port_derivation_witness :
    lookupVar (getVars (generateBlockVars reqNoPort tW)) (str "SERVER_NAME") =
      some (str "example.com") ∧
    lookupVar (getVars (generateBlockVars reqNoPort tW)) (str "SERVER_PORT") =
      some (str "80") ∧
    lookupVar (getVars (generateBlockVars reqNoPortTLS tW)) (str "SERVER_PORT") =
      some (str "443") ∧
    lookupVar (getVars (generateBlockVars reqW tW)) (str "SERVER_NAME") =
      some (str "example.com") ∧
    lookupVar (getVars (generateBlockVars reqW tW)) (str "SERVER_PORT") =
      some (str "8080") := by
  have h1 := (server_name_port_derivation reqNoPort tW
    (by decide) (by decide) (by decide)).1 (by decide)
  have h2 := (server_name_port_derivation reqNoPortTLS tW
    (by decide) (by decide) (by decide)).1 (by decide)
  have h3 := (server_name_port_derivation reqW tW
    (by decide) (by decide) (by decide)).2 (by decide)
  exact ⟨h1.1, h1.2, h2.2, h3.1, h3.2⟩

/-- Claim C8 (amended, counterexample `remote_addr_crash_on_empty_host`):
for every peer address `pre ++ ":" ++ post` whose last-colon prefix `pre`
is nonempty (and `post` colon-free), REMOTE_ADDR is `pre` with one pair of
surrounding `[` `]` stripped and REMOTE_PORT is `post` (no static override
of the two names). -/
theorem remote_split_last_colon (req : Request) (t : Transport) (pre post : Str)
    (h : req.remoteAddr = pre ++ ':' :: post) (hpost : ':' ∉ post) (hpre : pre ≠ [])
    (hra : ∀ p ∈ t.UWSGIParams, p.1 ≠ str "REMOTE_ADDR")
    (hrp : ∀ p ∈ t.UWSGIParams, p.1 ≠ str "REMOTE_PORT") :
    lookupVar (getVars (generateBlockVars req t)) (str "REMOTE_ADDR") =
      some (if pre.headD ' ' = '[' ∧ pre.getLastD ' ' = ']'
            then (pre.drop 1).dropLast else pre) ∧
    lookupVar (getVars (generateBlockVars req t)) (str "REMOTE_PORT") = some post := by
  have hr := remoteParse_split req.remoteAddr pre post h hpost hpre
  rw [generateBlockVars_eq req t _ _ hr]
  simp only [getVars]
  constructor
  · rw [lookupVar_foldl_ne _ _ _ _ _ hra,
      lookupVar_foldl_ne _ _ _ _ _ (fun p _ => headerVarName_ne p.1 _ (by decide)),
      lookupVar_tlsVars_ne _ _ _ (by decide), lookup_baseVars_REMOTE_ADDR]
  · rw [lookupVar_foldl_ne _ _ _ _ _ hrp,
      lookupVar_foldl_ne _ _ _ _ _ (fun p _ => headerVarName_ne p.1 _ (by decide)),
      lookupVar_tlsVars_ne _ _ _ (by decide), lookup_baseVars_REMOTE_PORT]

/-- Counterexample to C8 as stated: `":80"` contains a `:` yet the code
panics (index out of range) instead of producing REMOTE_ADDR/REMOTE_PORT. -/
theorem remote_addr_crash_on_empty_host :
    remoteParse (str ":80") = .panics ∧
    generateBlockVars { reqSmall with remoteAddr := str ":80" } tEmpty = .panics := by
  exact ⟨rfl, rfl⟩

/-- An IPv6 peer request. -/
def reqIPv6 : Request := { reqW with remoteAddr := str "[::1]:54321" }

/-- Witness for C8's amended theorem: `"[::1]:54321"` gives REMOTE_ADDR
`"::1"` (brackets stripped) and REMOTE_PORT `"54321"`. -/
theorem remote_split_last_colon_witness :
    lookupVar (getVars (generateBlockVars reqIPv6 tW)) (str "REMOTE_ADDR") =
      some (str "::1") ∧
    lookupVar (getVars (generateBlockVars reqIPv6 tW)) (str "REMOTE_PORT") =
      some (str "54321") := by
  have h := remote_split_last_colon reqIPv6 tW (str "[::1]") (str "54321")
    (by decide) (by decide) (by decide) (by decide) (by decide)
  exact ⟨h.1.trans (by decide), h.2⟩

/-- 66000 copies of 'a': a static parameter value that pushes the
serialized block past the uint16 range. -/
def bigVal : Str := List.replicate 66000 'a'

/-- The transport carrying the oversized static parameter. -/
def tBig : Transport := ⟨[(str "X", bigVal)]⟩

/-- The variable map `generateBlockVars reqSmall tEmpty` produces. -/
def varsSmall : Vars :=
  [(str "QUERY_STRING", []), (str "REQUEST_METHOD", str "GET"),
   (str "CONTENT_TYPE", []), (str "CONTENT_LENGTH", []),
   (str "REQUEST_URI", []), (str "PATH_INFO", []),
   (str "SERVER_PROTOCOL", []), (str "REQUEST_SCHEME", []),
   (str "HTTPS", []), (str "REMOTE_ADDR", str "1"),
   (str "REMOTE_PORT", str "2"), (str "SERVER_PORT", str "80"),
   (str "SERVER_NAME", str "h"), (str "HTTP_HOST", str "h")]

/-- The variable map `generateBlockVars reqSmall tBig` produces. -/
def varsBig : Vars := varsSmall ++ [(str "X", bigVal)]

/-- Claim C2 (code bug): a serialized block of 66229 bytes (> 65535) is not
rejected: `generateBlockVars` still returns a nil error, and `RoundTrip`
converts the length to `uint16`, so the two length bytes it writes read
back as 66229 % 65536 = 693 ≠ 66229 — the frame is sent with a silently
wrapped length instead of failing fast. -/
theorem oversized_block_wraps_silently :
    generateBlockVars reqSmall tBig = .returns (varsBig, none) ∧
    (serializeVars varsBig).length = 66229 ∧
    65535 < (serializeVars varsBig).length ∧
    frameHeader (serializeVars varsBig).length = [0, 181, 2, 0] ∧
    readU16le 181 2 = 693 ∧
    (RoundTrip reqSmall tBig true connOk).1 = .response respW := by
  have h2 : (strBytes bigVal).length = 66000 := strBytes_replicate_a 66000
  have hlen : (serializeVars varsBig).length = 66229 := by
    have h1 : (serializeVars varsSmall).length = 224 := by decide
    have hx : (strBytes (str "X")).length = 1 := by decide
    have hsplit : serializeVars varsBig =
        serializeVars varsSmall ++ serializeVars [(str "X", bigVal)] :=
      serializeVars_append varsSmall [(str "X", bigVal)]
    rw [hsplit, List.length_append, h1]
    have h3 : (serializeVars [(str "X", bigVal)]).length = 66005 := by
      simp only [serializeVars, List.append_nil, List.length_append,
        writeBlockVar_length, h2, hx]
    rw [h3]
  refine ⟨rfl, hlen, by rw [hlen]; decide, ?_, by decide, rfl⟩
  rw [hlen]
  decide

/-- A connection on which all four write operations report an error but a
response still parses. -/
def connFail : ConnBehavior := ⟨[false, false, false, false], some respW⟩

/-- Claim C4 (code bug): `RoundTrip` discards the error results of
`conn.Write`, `binary.Write` and `io.Copy`: with a connection on which all
four write operations fail, it still returns the parsed response instead
of propagating a transport failure. -/
theorem write_errors_ignored :
    (RoundTrip reqSmall tEmpty true connFail).2.writeErrors = 4 ∧
    (RoundTrip reqSmall tEmpty true connFail).1 = .response respW := by
  exact ⟨rfl, rfl⟩

/-- Counterexample to C5 as stated: the header the relay emits before the
block is 4 bytes (modifier 0x00, two length bytes, modifier 0x00), never 3. -/
theorem frame_header_not_three_bytes :
    (frameHeader 0).length = 4 ∧ (frameHeader 0).length ≠ 3 := by
  decide

/-- Claim C5 (amended from "3-byte" to "4-byte" header): for every request
whose block length L is at most 65535, `RoundTrip` writes exactly
`0x00, L % 256, L / 256, 0x00` immediately before the block (then the raw
body), and the two middle bytes read back little-endian give L. -/
theorem frame_header_roundtrip (req : Request) (t : Transport) (conn : ConnBehavior)
    (v : Vars) (hv : generateBlockVars req t = .returns (v, none))
    (hL : (serializeVars v).length ≤ 65535) :
    (RoundTrip req t true conn).2.written =
      frameHeader (serializeVars v).length ++ serializeVars v ++ req.body.getD [] ∧
    frameHeader (serializeVars v).length =
      [0, (serializeVars v).length % 256, (serializeVars v).length / 256 % 256, 0] ∧
    (frameHeader (serializeVars v).length).length = 4 ∧
    readU16le ((serializeVars v).length % 256) ((serializeVars v).length / 256 % 256) =
      (serializeVars v).length := by
  refine ⟨?_, rfl, rfl, ?_⟩
  · cases hc : conn.readResult <;> simp [RoundTrip, hv, hc]
  · simp only [readU16le]
    omega

/-- The concrete variable map of `reqW` with `tW`. -/
def vW : Vars := getVars (generateBlockVars reqW tW)

/-- Witness for C5's amended theorem at a concrete request. -/
theorem frame_header_roundtrip_witness :
    (RoundTrip reqW tW true connOk).2.written =
      frameHeader (serializeVars vW).length ++ serializeVars vW ++ reqW.body.getD [] ∧
    (frameHeader (serializeVars vW).length).length = 4 ∧
    readU16le ((serializeVars vW).length % 256) ((serializeVars vW).length / 256 % 256) =
      (serializeVars vW).length := by
  have h := frame_header_roundtrip reqW tW connOk vW (by rfl) (by decide)
  exact ⟨h.1, h.2.2.1, h.2.2.2⟩

/-- A request carrying a body stream. -/
def reqBody : Request := { reqSmall with body := some [104, 105] }

/-- Claim C9 (code bug): the body stream is closed exactly once on the
success path, but when the dial fails `RoundTrip` returns before the body
handling, closing it zero times — not on every exit path. -/
theorem body_not_closed_on_dial_failure :
    reqBody.body.isSome = true ∧
    (RoundTrip reqBody tEmpty true connOk).2.bodyCloses = 1 ∧
    (RoundTrip reqBody tEmpty false connOk).2.bodyCloses = 0 := by
  exact ⟨rfl, rfl, rfl⟩

end UwsgiT
